import Mathlib

/-!
# Verification of `snowflake_deployer.deploy_csvs_to_snowflake`

A shallow embedding of the single public operation of the repository:
`deploy_csvs_to_snowflake(csv_directory, sf_database, sf_schema, sf_connection_name)`.

The function sequences four external services (remote warehouse session,
in-memory DuckDB store, file enumeration via `glob`, Arrow-based table
writes).  The embedding models each external call by an oracle (`Env`)
saying whether it succeeds, and models the documented semantics of the two
stateful services:

* the local store executes `CREATE TABLE {name} AS SELECT * FROM
  read_csv_auto('{file}')`; DuckDB's plain `CREATE TABLE` raises a catalog
  error when a table of that name already exists (no `OR REPLACE` in the
  query), and on any failure the table is not created;
* the remote writer executes `save_as_table` with mode `overwrite`
  (create-or-replace keyed by table name); a failed write leaves the remote
  state unchanged;
* `glob.glob(os.path.join(dir, '*.csv'))` matches, non-recursively, the
  entries of the directory whose names match the pattern `*.csv`
  (fnmatch semantics, case-sensitive on POSIX), except that `*` does not
  match a leading dot, so hidden files are excluded; a nonexistent
  directory yields the empty match list; `os.path.basename` then recovers
  the entry name, so entries are modelled by their base names;
* the table name is `os.path.basename(f).replace('.csv', '').upper()` —
  Python's `str.replace` removes every (left-to-right, non-overlapping)
  occurrence of `'.csv'`, and `.upper()` upper-cases (names are modelled
  as ASCII character lists, where `Char.toUpper` agrees with Python).

Control flow of the Python function: a single `try` covering steps 1–5,
an `except` converting any exception into `return False`, and a `finally`
that closes the session (if set) and then the DuckDB connection (if set).
An exception raised inside the `finally` block propagates to the caller,
discarding any pending return value, and skips the statements after it in
the block.  The `return True` sits after the `try`/`finally`.
-/

/-- File and table names: lists of (ASCII) characters, the base name of a
directory entry. -/
abbrev Name := List Char

/-- Opaque payload standing for the row/column contents loaded from a file
(the CSV type-inference and the Arrow layout are external and opaque). -/
abbrev Data := Nat

/-- Oracle for the external services: the directory listing, the data each
file holds, and whether each external call succeeds. -/
structure Env where
  /-- The entries of `csv_directory`, in the order the OS listing returns
  them (a nonexistent directory is the empty listing). -/
  entries : List Name
  /-- The contents `read_csv_auto` would load from each file. -/
  contents : Name → Data
  /-- `Session.builder.config(...).create()` succeeds. -/
  connectOk : Bool
  /-- `session.use_database(sf_database)` succeeds. -/
  useDatabaseOk : Bool
  /-- `session.use_schema(sf_schema)` succeeds. -/
  useSchemaOk : Bool
  /-- `duckdb.connect(database=':memory:', read_only=False)` succeeds. -/
  duckOk : Bool
  /-- `read_csv_auto` parses the given file (the file is well-formed). -/
  loadOk : Name → Bool
  /-- `con.table(t).to_arrow_table()` / `session.create_dataframe` succeed
  for the given table. -/
  exportOk : Name → Bool
  /-- `snowpark_df.write.mode("overwrite").save_as_table(t)` succeeds. -/
  writeOk : Name → Bool
  /-- `session.close()` succeeds. -/
  closeSessionOk : Bool
  /-- `con.close()` succeeds. -/
  closeConOk : Bool

/-- A `*` wildcard consumes any prefix of the name: the rest of the
pattern (already turned into a matcher `f`) must accept some suffix. -/
def starAux (f : List Char → Bool) : List Char → Bool
  | [] => f []
  | c :: ns => f (c :: ns) || starAux f ns

/-- `fnmatch` matching of a pattern against a name: `*` matches any (also
empty) sequence, any other pattern character matches itself (the source's
pattern `'*.csv'` has no `?` or `[...]` construct, so only `*` and literal
characters are modelled). -/
def fnmatch1 : List Char → List Char → Bool
  | [], name => name.isEmpty
  | p :: ps, name =>
    if p = '*' then starAux (fnmatch1 ps) name
    else
      match name with
      | [] => false
      | c :: ns => decide (p = c) && fnmatch1 ps ns

/-- `glob.glob(os.path.join(dir, '*.csv'))` keeps a directory entry iff its
name matches `*.csv` and is not hidden: `glob`'s `*` does not match a name
whose first character is `.`. -/
def globMatch (name : Name) : Bool :=
  fnmatch1 "*.csv".toList name && !(name.head? = some '.')

/-- The match list `csv_files` of line 44 of the source (entry order is the
listing order; `glob` does not sort). -/
def matchedFiles (env : Env) : List Name :=
  env.entries.filter globMatch

/-- The four characters of the literal `'.csv'` passed to `replace` (and
the extension part of the `glob` pattern). -/
def csvExt : Name := ['.', 'c', 's', 'v']

/-- Does the list start with the four characters `.csv`? -/
def isCsvAt : Name → Bool
  | c :: c2 :: c3 :: c4 :: _ => decide (c = '.' ∧ c2 = 'c' ∧ c3 = 's' ∧ c4 = 'v')
  | _ => false

/-- Does `.csv` occur anywhere in the list? -/
def containsCsv : Name → Bool
  | [] => false
  | c :: rest => isCsvAt (c :: rest) || containsCsv rest

/-- Python's `s.replace('.csv', '')`: scanning left to right, delete every
non-overlapping occurrence of `.csv` (on a match the scan resumes after
the matched characters). -/
def stripCsv : Name → Name
  | '.' :: 'c' :: 's' :: 'v' :: rest => stripCsv rest
  | c :: rest => c :: stripCsv rest
  | [] => []

/-- Line 51: `os.path.basename(csv_file).replace('.csv', '').upper()`. -/
def tableNameOf (file : Name) : Name :=
  (stripCsv file).map Char.toUpper

/-- The load loop of lines 50–54.  State: the tables of the in-memory
DuckDB store, in creation order.  Executing
`CREATE TABLE n AS SELECT * FROM read_csv_auto(f)` raises if a table named
`n` already exists (DuckDB catalog error; the query has no `OR REPLACE`),
or if the file fails to parse; either exception aborts the loop.  Returns
the store contents and whether the whole loop completed. -/
def loadFiles (env : Env) : List Name → List (Name × Data) → List (Name × Data) × Bool
  | [], tables => (tables, true)
  | f :: fs, tables =>
    let n := tableNameOf f
    if (tables.map Prod.fst).contains n then (tables, false)
    else if env.loadOk f then loadFiles env fs (tables ++ [(n, env.contents f)])
    else (tables, false)

/-- `save_as_table` with mode `overwrite`: create-or-replace keyed by the
table name. -/
def upsert (m : List (Name × Data)) (n : Name) (d : Data) : List (Name × Data) :=
  if (m.map Prod.fst).contains n then
    m.map (fun p => if p.1 = n then (n, d) else p)
  else m ++ [(n, d)]

/-- The deploy loop of lines 61–66 over the `SHOW TABLES` listing.
State: the remote warehouse tables and the names for which `save_as_table`
was invoked (the write was attempted, whether or not it succeeded).  An
export failure (`to_arrow_table` / `create_dataframe`) precedes the write
attempt; a failed write leaves the remote state unchanged.  Returns the
remote state, the attempted writes, and whether the loop completed. -/
def writeTables (env : Env) :
    List (Name × Data) → List (Name × Data) → List Name →
    List (Name × Data) × List Name × Bool
  | [], remote, attempted => (remote, attempted, true)
  | (n, d) :: ts, remote, attempted =>
    if env.exportOk n then
      if env.writeOk n then writeTables env ts (upsert remote n d) (attempted ++ [n])
      else (remote, attempted ++ [n], false)
    else (remote, attempted, false)

/-- Observable outcome of the `try` body (lines 32–66): the value the
function is about to return when the `finally` block starts (the `except`
clause has already turned every exception into `False`; the success path
will return `True` after the `finally`), which resources were acquired,
the remote state, the local tables created, and the attempted writes. -/
structure TryOut where
  preResult : Bool
  sessionOpened : Bool
  conOpened : Bool
  remote : List (Name × Data)
  localCreated : List Name
  writesAttempted : List Name
deriving Repr, DecidableEq

/-- Lines 32–70: the `try` body and the `except` clause.  Step order as in
the source: connect, `use_database`, `use_schema`, `duckdb.connect`,
enumerate (early `return False` on an empty match list), load loop, deploy
loop. -/
def tryBody (env : Env) (remote0 : List (Name × Data)) : TryOut :=
  if env.connectOk then
    if env.useDatabaseOk then
      if env.useSchemaOk then
        if env.duckOk then
          let files := matchedFiles env
          if files.isEmpty then
            ⟨false, true, true, remote0, [], []⟩
          else
            match loadFiles env files [] with
            | (tables, ok) =>
              if ok then
                match writeTables env tables remote0 [] with
                | (remote, attempted, wok) =>
                  ⟨wok, true, true, remote, tables.map Prod.fst, attempted⟩
              else ⟨false, true, true, remote0, tables.map Prod.fst, []⟩
        else ⟨false, true, false, remote0, [], []⟩
      else ⟨false, true, false, remote0, [], []⟩
    else ⟨false, true, false, remote0, [], []⟩
  else ⟨false, false, false, remote0, [], []⟩

/-- Observable outcome of the whole call.  `result = some b` means the
function returned the boolean `b`; `result = none` means an exception
raised inside the `finally` block propagated to the caller.
`sessionCloseCalled` / `conCloseCalled` record whether `close()` was
invoked on the respective resource (also when that call itself raised). -/
structure Outcome where
  result : Option Bool
  sessionOpened : Bool
  conOpened : Bool
  sessionCloseCalled : Bool
  conCloseCalled : Bool
  remote : List (Name × Data)
  localCreated : List Name
  writesAttempted : List Name
deriving Repr, DecidableEq

/-- Lines 72–79, the `finally` block, then line 82: `if session:
session.close()` followed by `if con: con.close()`.  An exception from
`session.close()` skips `con.close()` and propagates (discarding the
pending return value); an exception from `con.close()` likewise
propagates. -/
def runFinally (env : Env) (t : TryOut) : Outcome :=
  if t.sessionOpened then
    if env.closeSessionOk then
      if t.conOpened then
        if env.closeConOk then
          ⟨some t.preResult, t.sessionOpened, t.conOpened, true, true,
            t.remote, t.localCreated, t.writesAttempted⟩
        else
          ⟨none, t.sessionOpened, t.conOpened, true, true,
            t.remote, t.localCreated, t.writesAttempted⟩
      else
        ⟨some t.preResult, t.sessionOpened, t.conOpened, true, false,
          t.remote, t.localCreated, t.writesAttempted⟩
    else
      ⟨none, t.sessionOpened, t.conOpened, true, false,
        t.remote, t.localCreated, t.writesAttempted⟩
  else
    if t.conOpened then
      if env.closeConOk then
        ⟨some t.preResult, t.sessionOpened, t.conOpened, false, true,
          t.remote, t.localCreated, t.writesAttempted⟩
      else
        ⟨none, t.sessionOpened, t.conOpened, false, true,
          t.remote, t.localCreated, t.writesAttempted⟩
    else
      ⟨some t.preResult, t.sessionOpened, t.conOpened, false, false,
        t.remote, t.localCreated, t.writesAttempted⟩

/-- `deploy_csvs_to_snowflake`, given the external behavior `env` and the
remote warehouse state `remote0` at the start of the call. -/
def deploy (env : Env) (remote0 : List (Name × Data)) : Outcome :=
  runFinally env (tryBody env remote0)

/-- An environment in which every external call succeeds; concrete
scenarios below override individual fields. -/
def allOk (entries : List Name) (contents : Name → Data) : Env :=
  ⟨entries, contents, true, true, true, true,
    fun _ => true, fun _ => true, fun _ => true, true, true⟩

/-- The local tables a fully successful load phase produces: one table per
matched file, keyed by the derived name, holding the file's contents. -/
def tablesOf (env : Env) : List (Name × Data) :=
  (matchedFiles env).map (fun f => (tableNameOf f, env.contents f))

/-- Repeated `save_as_table` with mode `overwrite`, one table at a time. -/
def saveAll (ts : List (Name × Data)) (r : List (Name × Data)) : List (Name × Data) :=
  ts.foldl (fun r p => upsert r p.1 p.2) r

/-- §4 step 7 of the spec, in the spec's words: every step 1–5 completed
without error — the connection, context selection and local-store opening
succeeded, at least one file matched, every matched file loaded without
error (in particular no two matched files derive the same table name,
which would make the second `CREATE TABLE` fail), and every table exported
and wrote back without error. -/
def allStepsSucceed (env : Env) : Bool :=
  env.connectOk && env.useDatabaseOk && env.useSchemaOk && env.duckOk &&
  !(matchedFiles env).isEmpty &&
  (matchedFiles env).all env.loadOk &&
  decide (((matchedFiles env).map tableNameOf).Nodup) &&
  (matchedFiles env).all (fun f => env.exportOk (tableNameOf f) && env.writeOk (tableNameOf f))

example : globMatch "sales.csv".toList = true := by decide
example : globMatch "SALES.CSV".toList = false := by decide
example : globMatch ".hidden.csv".toList = false := by decide
example : globMatch "notes.txt".toList = false := by decide
example : tableNameOf "sales.csv".toList = "SALES".toList := by decide
example : tableNameOf "a.csv.csv".toList = "A".toList := by decide
example : tableNameOf "my.csvfile.csv".toList = "MYFILE".toList := by decide

/-! ## Helper lemmas -/

theorem name_contains_iff (l : List Name) (n : Name) : l.contains n = true ↔ n ∈ l := by
  simp

/-- When both `close()` calls succeed, the `finally` block preserves the
pending return value and closes exactly the acquired resources. -/
theorem runFinally_ok (env : Env) (t : TryOut)
    (hs : env.closeSessionOk = true) (hc : env.closeConOk = true) :
    runFinally env t =
      ⟨some t.preResult, t.sessionOpened, t.conOpened, t.sessionOpened, t.conOpened,
        t.remote, t.localCreated, t.writesAttempted⟩ := by
  obtain ⟨pre, so, co, rem, lc, wa⟩ := t
  cases so <;> cases co <;> simp [runFinally, hs, hc]

/-- A completed load loop has created exactly one table per file, keyed by
the derived name, in file order. -/
theorem loadFiles_ok_tables (env : Env) (fs : List Name) :
    ∀ init, (loadFiles env fs init).2 = true →
      (loadFiles env fs init).1 = init ++ fs.map (fun f => (tableNameOf f, env.contents f)) := by
  induction fs with
  | nil => intro init _; simp [loadFiles]
  | cons f fs ih =>
    intro init h
    by_cases hdup : tableNameOf f ∈ init.map Prod.fst
    · simp [loadFiles, hdup] at h
    · by_cases hload : env.loadOk f = true
      · simp only [loadFiles] at h ⊢
        rw [if_neg (by simpa using hdup)] at h ⊢
        rw [if_pos hload] at h ⊢
        rw [ih _ h]
        simp
      · simp [loadFiles, hdup, hload] at h

/-- The load loop completes iff every file parses and no derived name
repeats one already present (the `CREATE TABLE` collision check). -/
theorem loadFiles_ok_iff (env : Env) (fs : List Name) :
    ∀ init, (init.map Prod.fst).Nodup →
      ((loadFiles env fs init).2 = true ↔
        (∀ f ∈ fs, env.loadOk f = true) ∧
          (init.map Prod.fst ++ fs.map tableNameOf).Nodup) := by
  induction fs with
  | nil => intro init hinit; simpa [loadFiles] using hinit
  | cons f fs ih =>
    intro init hinit
    by_cases hdup : tableNameOf f ∈ init.map Prod.fst
    · simp only [loadFiles]
      rw [if_pos (by simpa using hdup)]
      constructor
      · intro h; cases h
      · rintro ⟨-, hnd⟩
        rw [List.nodup_append] at hnd
        exact (hnd.2.2 hdup (by simp)).elim
    · by_cases hload : env.loadOk f = true
      · have hinit2 : ((init ++ [(tableNameOf f, env.contents f)]).map Prod.fst).Nodup := by
          simp [List.nodup_append, hinit, hdup]
        simp only [loadFiles]
        rw [if_neg (by simpa using hdup), if_pos hload, ih _ hinit2]
        constructor
        · rintro ⟨hall, hnd⟩
          refine ⟨fun g hg => ?_, ?_⟩
          · rcases List.mem_cons.1 hg with rfl | hg
            · exact hload
            · exact hall g hg
          · simpa using hnd
        · rintro ⟨hall, hnd⟩
          exact ⟨fun g hg => hall g (List.mem_cons_of_mem _ hg), by simpa using hnd⟩
      · simp only [loadFiles]
        rw [if_neg (by simpa using hdup), if_neg hload]
        constructor
        · intro h; cases h
        · rintro ⟨hall, -⟩
          exact absurd (hall f (by simp)) hload

/-- A file that fails to parse makes the load loop fail, wherever it sits
in the list (an earlier collision also fails it). -/
theorem loadFiles_fails_of_bad (env : Env) (fs : List Name) (f : Name)
    (hf : f ∈ fs) (hbad : env.loadOk f = false) :
    ∀ init, (loadFiles env fs init).2 = false := by
  induction fs with
  | nil => cases hf
  | cons g fs ih =>
    intro init
    by_cases hdup : tableNameOf g ∈ init.map Prod.fst
    · simp [loadFiles, hdup]
    · rcases List.mem_cons.1 hf with rfl | hf'
      · simp [loadFiles, hdup, hbad]
      · by_cases hload : env.loadOk g = true
        · simp only [loadFiles]
          rw [if_neg (by simpa using hdup), if_pos hload]
          exact ih hf' _
        · simp [loadFiles, hdup, hload]

/-- The load loop never succeeds when two files derive the same name. -/
theorem loadFiles_fails_of_dup (env : Env) (fs : List Name)
    (hdup : ¬ (fs.map tableNameOf).Nodup) :
    (loadFiles env fs []).2 = false := by
  by_contra h
  rw [Bool.not_eq_false] at h
  exact hdup (by simpa using ((loadFiles_ok_iff env fs [] (by simp)).1 h).2)

/-- The deploy loop completes iff every table exports and writes without
error. -/
theorem writeTables_ok_iff (env : Env) (ts : List (Name × Data)) :
    ∀ remote att, ((writeTables env ts remote att).2.2 = true ↔
      ∀ p ∈ ts, env.exportOk p.1 = true ∧ env.writeOk p.1 = true) := by
  induction ts with
  | nil => intro remote att; simp [writeTables]
  | cons p ts ih =>
    intro remote att
    obtain ⟨n, d⟩ := p
    by_cases hexp : env.exportOk n = true
    · by_cases hwr : env.writeOk n = true
      · simp only [writeTables, hexp, if_true, hwr]
        rw [ih]
        constructor
        · intro h
          refine fun q hq => ?_
          rcases List.mem_cons.1 hq with rfl | hq
          · exact ⟨hexp, hwr⟩
          · exact h q hq
        · intro h q hq
          exact h q (List.mem_cons_of_mem _ hq)
      · simp [writeTables, hexp, hwr]
    · simp [writeTables, hexp]

/-- A completed deploy loop has overwritten each table in order and
attempted exactly one write per table. -/
theorem writeTables_ok_out (env : Env) (ts : List (Name × Data)) :
    ∀ remote att, (writeTables env ts remote att).2.2 = true →
      writeTables env ts remote att = (saveAll ts remote, att ++ ts.map Prod.fst, true) := by
  induction ts with
  | nil => intro remote att _; simp [writeTables, saveAll]
  | cons p ts ih =>
    intro remote att h
    obtain ⟨n, d⟩ := p
    by_cases hexp : env.exportOk n = true
    · by_cases hwr : env.writeOk n = true
      · simp only [writeTables, hexp, if_true, hwr] at h ⊢
        rw [ih _ _ h]
        simp [saveAll]
      · simp [writeTables, hexp, hwr] at h
    · simp [writeTables, hexp] at h

/-- `save_as_table` on a name absent from the warehouse appends the new
table. -/
theorem upsert_not_mem (m : List (Name × Data)) (n : Name) (d : Data)
    (h : n ∉ m.map Prod.fst) : upsert m n d = m ++ [(n, d)] := by
  simp only [upsert]
  rw [if_neg (by simpa using h)]

/-- After `save_as_table`, the written table is present with exactly the
written contents. -/
theorem mem_upsert_self (m : List (Name × Data)) (n : Name) (d : Data) :
    (n, d) ∈ upsert m n d := by
  by_cases h : n ∈ m.map Prod.fst
  · obtain ⟨q, hq, hq1⟩ := List.mem_map.1 h
    simp only [upsert]
    rw [if_pos (by simpa using h)]
    exact List.mem_map.2 ⟨q, hq, by simp [hq1]⟩
  · rw [upsert_not_mem m n d h]
    simp

/-- `save_as_table` leaves tables with other names untouched. -/
theorem mem_upsert_of_ne (m : List (Name × Data)) (n : Name) (d : Data)
    (p : Name × Data) (hp : p ∈ m) (hne : p.1 ≠ n) : p ∈ upsert m n d := by
  by_cases h : n ∈ m.map Prod.fst
  · simp only [upsert]
    rw [if_pos (by simpa using h)]
    exact List.mem_map.2 ⟨p, hp, by rw [if_neg hne]⟩
  · rw [upsert_not_mem m n d h]
    exact List.mem_append_left _ hp

/-- In a warehouse without duplicate names, two tables sharing a name are
the same table. -/
theorem eq_of_keys_nodup (m : List (Name × Data)) (hnd : (m.map Prod.fst).Nodup)
    {p q : Name × Data} (hp : p ∈ m) (hq : q ∈ m) (h : p.1 = q.1) : p = q := by
  induction m with
  | nil => cases hp
  | cons a m ih =>
    rw [List.map_cons, List.nodup_cons] at hnd
    rcases List.mem_cons.1 hp with rfl | hp' <;> rcases List.mem_cons.1 hq with rfl | hq'
    · rfl
    · exact absurd (h ▸ List.mem_map.2 ⟨q, hq', rfl⟩) hnd.1
    · exact absurd (h ▸ List.mem_map.2 ⟨p, hp', rfl⟩) hnd.1
    · exact ih hnd.2 hp' hq'

/-- Overwriting a table with the contents it already has is a no-op. -/
theorem upsert_eq_self (m : List (Name × Data)) (n : Name) (d : Data)
    (hnd : (m.map Prod.fst).Nodup) (hmem : (n, d) ∈ m) : upsert m n d = m := by
  have h : n ∈ m.map Prod.fst := List.mem_map.2 ⟨(n, d), hmem, rfl⟩
  simp only [upsert]
  rw [if_pos (by simpa using h)]
  have hcongr : ∀ p ∈ m, (if p.1 = n then (n, d) else p) = p := by
    intro p hp
    by_cases hpe : p.1 = n
    · rw [if_pos hpe]
      exact (eq_of_keys_nodup m hnd hmem hp (by simp [hpe])).symm ▸ rfl
    · rw [if_neg hpe]
  rw [List.map_congr_left hcongr]
  simp

/-- `save_as_table` never introduces a duplicate name. -/
theorem upsert_keys_nodup (m : List (Name × Data)) (n : Name) (d : Data)
    (h : (m.map Prod.fst).Nodup) : ((upsert m n d).map Prod.fst).Nodup := by
  by_cases hm : n ∈ m.map Prod.fst
  · have : (upsert m n d).map Prod.fst = m.map Prod.fst := by
      simp only [upsert]
      rw [if_pos (by simpa using hm)]
      rw [List.map_map]
      refine List.map_congr_left ?_
      intro p hp
      by_cases hpe : p.1 = n
      · simp [hpe]
      · simp [hpe]
    rw [this]; exact h
  · rw [upsert_not_mem m n d hm]
    simp [List.nodup_append, h, hm]

/-- Writing tables with pairwise-distinct, fresh names appends them in
order. -/
theorem saveAll_fresh (ts : List (Name × Data)) :
    ∀ acc, (ts.map Prod.fst).Nodup → (∀ p ∈ ts, p.1 ∉ acc.map Prod.fst) →
      saveAll ts acc = acc ++ ts := by
  induction ts with
  | nil => intro acc _ _; simp [saveAll]
  | cons p ts ih =>
    intro acc hnd hfresh
    rw [List.map_cons, List.nodup_cons] at hnd
    have h1 : upsert acc p.1 p.2 = acc ++ [p] := by
      rw [upsert_not_mem acc p.1 p.2 (hfresh p (List.mem_cons_self _ _))]
    have h2 : ∀ q ∈ ts, q.1 ∉ (acc ++ [p]).map Prod.fst := by
      intro q hq
      rw [List.map_append]
      intro hmem
      rcases List.mem_append.1 hmem with hmem | hmem
      · exact hfresh q (List.mem_cons_of_mem _ hq) hmem
      · have : q.1 = p.1 := by simpa using hmem
        exact hnd.1 (this ▸ List.mem_map.2 ⟨q, hq, rfl⟩)
    calc saveAll (p :: ts) acc = saveAll ts (upsert acc p.1 p.2) := rfl
      _ = saveAll ts (acc ++ [p]) := by rw [h1]
      _ = (acc ++ [p]) ++ ts := ih _ hnd.2 h2
      _ = acc ++ p :: ts := by simp

/-- Writing a batch never introduces duplicate warehouse names. -/
theorem saveAll_keys_nodup (ts : List (Name × Data)) :
    ∀ r, (r.map Prod.fst).Nodup → ((saveAll ts r).map Prod.fst).Nodup := by
  induction ts with
  | nil => intro r h; simpa [saveAll] using h
  | cons p ts ih =>
    intro r h
    exact ih _ (upsert_keys_nodup r p.1 p.2 h)

/-- A table stays present (with its contents) once written, provided no
later table of the batch reuses its name. -/
theorem mem_saveAll_preserve (ts : List (Name × Data)) :
    ∀ s (p : Name × Data), (∀ q ∈ ts, q.1 ≠ p.1) → p ∈ s → p ∈ saveAll ts s := by
  induction ts with
  | nil => intro s p _ hp; simpa [saveAll] using hp
  | cons q ts ih =>
    intro s p hne hp
    refine ih _ p (fun q' hq' => hne q' (List.mem_cons_of_mem _ hq')) ?_
    exact mem_upsert_of_ne s q.1 q.2 p hp (fun h => hne q (List.mem_cons_self _ _) h.symm)

/-- Every table of a batch with pairwise-distinct names is present after
the batch is written. -/
theorem mem_saveAll (ts : List (Name × Data)) :
    ∀ r p, p ∈ ts → (ts.map Prod.fst).Nodup → p ∈ saveAll ts r := by
  induction ts with
  | nil => intro r p hp _; cases hp
  | cons q ts ih =>
    intro r p hp hnd
    rw [List.map_cons, List.nodup_cons] at hnd
    rcases List.mem_cons.1 hp with rfl | hp'
    · refine mem_saveAll_preserve ts _ p ?_ ?_
      · intro q' hq' h
        exact hnd.1 (h ▸ List.mem_map.2 ⟨q', hq', rfl⟩)
      · simpa using mem_upsert_self r p.1 p.2
    · exact ih _ p hp' hnd.2

/-- Rewriting a batch that is already present in the warehouse changes
nothing. -/
theorem saveAll_eq_self (ts : List (Name × Data)) :
    ∀ s, (s.map Prod.fst).Nodup → (∀ p ∈ ts, p ∈ s) → saveAll ts s = s := by
  induction ts with
  | nil => intro s _ _; simp [saveAll]
  | cons p ts ih =>
    intro s hs hmem
    have h1 : upsert s p.1 p.2 = s := by
      have := hmem p (List.mem_cons_self _ _)
      exact upsert_eq_self s p.1 p.2 hs (by simpa using this)
    calc saveAll (p :: ts) s = saveAll ts (upsert s p.1 p.2) := rfl
      _ = saveAll ts s := by rw [h1]
      _ = s := ih s hs (fun q hq => hmem q (List.mem_cons_of_mem _ hq))

/-- Writing the same batch twice is the same as writing it once. -/
theorem saveAll_idem (ts : List (Name × Data)) (r : List (Name × Data))
    (hts : (ts.map Prod.fst).Nodup) (hr : (r.map Prod.fst).Nodup) :
    saveAll ts (saveAll ts r) = saveAll ts r := by
  refine saveAll_eq_self ts _ (saveAll_keys_nodup ts r hr) ?_
  intro p hp
  exact mem_saveAll ts r p hp hts

theorem isEmpty_false_of_ne_nil {α : Type} (l : List α) (h : l ≠ []) :
    l.isEmpty = false := by
  cases l with
  | nil => exact absurd rfl h
  | cons a l => rfl

/-- The names of the loaded tables are the derived names of the matched
files, in order. -/
theorem tablesOf_keys (env : Env) :
    (tablesOf env).map Prod.fst = (matchedFiles env).map tableNameOf := by
  simp [tablesOf, List.map_map, Function.comp]

/-- A failure of step 1 (connect or context selection) leaves the `try`
body with nothing but an open session: the local store is never opened,
no table is created anywhere, and `False` is pending. -/
theorem tryBody_early_fail (env : Env) (r0 : List (Name × Data))
    (h : env.connectOk = false ∨ env.useDatabaseOk = false ∨ env.useSchemaOk = false) :
    tryBody env r0 = ⟨false, env.connectOk, false, r0, [], []⟩ := by
  rcases h with h | h | h
  · simp [tryBody, h]
  · cases hc : env.connectOk <;> simp [tryBody, h, hc]
  · cases hc : env.connectOk <;> cases hdb : env.useDatabaseOk <;>
      simp [tryBody, h, hc, hdb]

/-- Any failure at or before the load phase aborts the `try` body before
any remote write is attempted: the warehouse is untouched and `False` is
pending. -/
theorem tryBody_abort (env : Env) (r0 : List (Name × Data))
    (h : env.connectOk = false ∨ env.useDatabaseOk = false ∨ env.useSchemaOk = false ∨
      env.duckOk = false ∨ matchedFiles env = [] ∨
      (loadFiles env (matchedFiles env) []).2 = false) :
    (tryBody env r0).preResult = false ∧ (tryBody env r0).remote = r0 ∧
      (tryBody env r0).writesAttempted = [] := by
  cases hc : env.connectOk
  · simp [tryBody, hc]
  cases hdb : env.useDatabaseOk
  · simp [tryBody, hc, hdb]
  cases hsc : env.useSchemaOk
  · simp [tryBody, hc, hdb, hsc]
  cases hdk : env.duckOk
  · simp [tryBody, hc, hdb, hsc, hdk]
  have h' : matchedFiles env = [] ∨ (loadFiles env (matchedFiles env) []).2 = false := by
    rcases h with h | h | h | h | h | h
    · rw [h] at hc; cases hc
    · rw [h] at hdb; cases hdb
    · rw [h] at hsc; cases hsc
    · rw [h] at hdk; cases hdk
    · exact Or.inl h
    · exact Or.inr h
  rcases h' with hm | hl
  · simp [tryBody, hc, hdb, hsc, hdk, hm]
  · by_cases hm : matchedFiles env = []
    · simp [tryBody, hc, hdb, hsc, hdk, hm]
    · rcases hlf : loadFiles env (matchedFiles env) [] with ⟨tables, ok⟩
      rw [hlf] at hl
      subst hl
      simp [tryBody, hc, hdb, hsc, hdk, hm, hlf]

/-- If the run fails before the load loop starts, no local table is ever
created. -/
theorem tryBody_localCreated_nil (env : Env) (r0 : List (Name × Data))
    (h : env.connectOk = false ∨ env.useDatabaseOk = false ∨ env.useSchemaOk = false ∨
      env.duckOk = false ∨ matchedFiles env = []) :
    (tryBody env r0).localCreated = [] := by
  cases hc : env.connectOk
  · simp [tryBody, hc]
  cases hdb : env.useDatabaseOk
  · simp [tryBody, hc, hdb]
  cases hsc : env.useSchemaOk
  · simp [tryBody, hc, hdb, hsc]
  cases hdk : env.duckOk
  · simp [tryBody, hc, hdb, hsc, hdk]
  have hm : matchedFiles env = [] := by
    rcases h with h | h | h | h | h
    · rw [h] at hc; cases hc
    · rw [h] at hdb; cases hdb
    · rw [h] at hsc; cases hsc
    · rw [h] at hdk; cases hdk
    · exact h
  simp [tryBody, hc, hdb, hsc, hdk, hm]

/-- The fully successful `try` body: every table loaded and written, one
per matched file, `True` pending. -/
theorem tryBody_success (env : Env) (r0 : List (Name × Data))
    (hc : env.connectOk = true) (hdb : env.useDatabaseOk = true)
    (hsc : env.useSchemaOk = true) (hdk : env.duckOk = true)
    (hne : matchedFiles env ≠ [])
    (hld : ∀ f ∈ matchedFiles env, env.loadOk f = true)
    (hnd : ((matchedFiles env).map tableNameOf).Nodup)
    (hexp : ∀ f ∈ matchedFiles env, env.exportOk (tableNameOf f) = true)
    (hwr : ∀ f ∈ matchedFiles env, env.writeOk (tableNameOf f) = true) :
    tryBody env r0 = ⟨true, true, true, saveAll (tablesOf env) r0,
      (matchedFiles env).map tableNameOf, (matchedFiles env).map tableNameOf⟩ := by
  have hok : (loadFiles env (matchedFiles env) []).2 = true :=
    (loadFiles_ok_iff env _ [] (by simp)).2 ⟨hld, by simpa using hnd⟩
  have htab : (loadFiles env (matchedFiles env) []).1 = tablesOf env := by
    simpa [tablesOf] using loadFiles_ok_tables env _ [] hok
  have hwok : (writeTables env (tablesOf env) r0 []).2.2 = true := by
    rw [writeTables_ok_iff]
    intro p hp
    obtain ⟨f, hf, rfl⟩ := List.mem_map.1 hp
    exact ⟨hexp f hf, hwr f hf⟩
  have hwout := writeTables_ok_out env (tablesOf env) r0 [] hwok
  rcases hlf : loadFiles env (matchedFiles env) [] with ⟨tables, ok⟩
  rw [hlf] at hok htab
  subst hok
  subst htab
  simp [tryBody, hc, hdb, hsc, hdk, hne, hlf, hwout, tablesOf_keys]

theorem fnmatch1_nil_pat (name : List Char) : fnmatch1 [] name = name.isEmpty := rfl

theorem fnmatch1_star (ps name : List Char) :
    fnmatch1 ('*' :: ps) name = starAux (fnmatch1 ps) name := rfl

theorem fnmatch1_lit_nil (p : Char) (ps : List Char) (h : p ≠ '*') :
    fnmatch1 (p :: ps) [] = false := by
  change (if p = '*' then starAux (fnmatch1 ps) [] else false) = false
  rw [if_neg h]

theorem fnmatch1_lit_cons (p : Char) (ps : List Char) (c : Char) (ns : List Char)
    (h : p ≠ '*') :
    fnmatch1 (p :: ps) (c :: ns) = (decide (p = c) && fnmatch1 ps ns) := by
  change (if p = '*' then starAux (fnmatch1 ps) (c :: ns)
    else decide (p = c) && fnmatch1 ps ns) = _
  rw [if_neg h]

/-- `*` followed by a matcher accepts a name iff the matcher accepts some
suffix of it. -/
theorem starAux_iff (f : List Char → Bool) (l : List Char) :
    starAux f l = true ↔ ∃ s, s <:+ l ∧ f s = true := by
  induction l with
  | nil =>
    simp only [starAux]
    constructor
    · intro h; exact ⟨[], List.suffix_refl _, h⟩
    · rintro ⟨s, hs, hf⟩
      rw [List.suffix_nil.1 hs] at hf
      exact hf
  | cons c l ih =>
    simp only [starAux, Bool.or_eq_true, ih]
    constructor
    · rintro (h | ⟨s, hs, hf⟩)
      · exact ⟨c :: l, List.suffix_refl _, h⟩
      · exact ⟨s, hs.trans (List.suffix_cons c l), hf⟩
    · rintro ⟨s, hs, hf⟩
      rcases List.suffix_cons_iff.1 hs with rfl | hs
      · exact Or.inl hf
      · exact Or.inr ⟨s, hs, hf⟩

/-- The literal part `.csv` of the pattern matches exactly the name
`.csv`. -/
theorem fnmatch_csvExt (l : List Char) : fnmatch1 csvExt l = true ↔ l = csvExt := by
  rcases l with _ | ⟨a, _ | ⟨b, _ | ⟨c, _ | ⟨d, rest⟩⟩⟩⟩
  · rw [csvExt, fnmatch1_lit_nil _ _ (by decide)]
    simp [csvExt]
  · rw [csvExt, fnmatch1_lit_cons _ _ _ _ (by decide), fnmatch1_lit_nil _ _ (by decide)]
    simp [csvExt]
  · rw [csvExt, fnmatch1_lit_cons _ _ _ _ (by decide), fnmatch1_lit_cons _ _ _ _ (by decide),
      fnmatch1_lit_nil _ _ (by decide)]
    simp [csvExt]
  · rw [csvExt, fnmatch1_lit_cons _ _ _ _ (by decide), fnmatch1_lit_cons _ _ _ _ (by decide),
      fnmatch1_lit_cons _ _ _ _ (by decide), fnmatch1_lit_nil _ _ (by decide)]
    simp [csvExt]
  · rw [csvExt, fnmatch1_lit_cons _ _ _ _ (by decide), fnmatch1_lit_cons _ _ _ _ (by decide),
      fnmatch1_lit_cons _ _ _ _ (by decide), fnmatch1_lit_cons _ _ _ _ (by decide),
      fnmatch1_nil_pat]
    simp only [Bool.and_eq_true, decide_eq_true_eq, List.isEmpty_iff, List.cons.injEq,
      csvExt, and_assoc]
    constructor
    · rintro ⟨h1, h2, h3, h4, h5⟩
      exact ⟨h1.symm, h2.symm, h3.symm, h4.symm, h5⟩
    · rintro ⟨h1, h2, h3, h4, h5⟩
      exact ⟨h1.symm, h2.symm, h3.symm, h4.symm, h5⟩

theorem isCsvAt_guard (c : Char) (rest : List Char) (h : isCsvAt (c :: rest) = false) :
    ∀ r, c = '.' → rest = 'c' :: 's' :: 'v' :: r → False := by
  intro r hc hr
  subst hc
  subst hr
  simp [isCsvAt] at h

/-- A head position where `.csv` does not start is copied through by
`replace`. -/
theorem stripCsv_cons (c : Char) (rest : List Char)
    (h : ∀ r, c = '.' → rest = 'c' :: 's' :: 'v' :: r → False) :
    stripCsv (c :: rest) = c :: stripCsv rest := by
  rw [stripCsv.eq_def]
  split
  · rename_i r heq
    obtain ⟨h1, h2⟩ := List.cons.inj heq
    exact absurd h2 (fun hh => h r h1 hh)
  · rename_i c' rest' hg heq
    obtain ⟨h1, h2⟩ := List.cons.inj heq
    subst h1
    subst h2
    rfl
  · rename_i heq
    exact absurd heq (List.cons_ne_nil c rest)

/-- A name free of `.csv` passes through `replace` unchanged. -/
theorem stripCsv_no_occurrence (l : Name) (h : containsCsv l = false) :
    stripCsv l = l := by
  induction l with
  | nil => rfl
  | cons c rest ih =>
    rw [containsCsv, Bool.or_eq_false_iff] at h
    rw [stripCsv_cons c rest (isCsvAt_guard c rest h.1), ih h.2]

/-- Appending the `.csv` extension to a stem free of `.csv` and applying
`replace` recovers exactly the stem: the only occurrence removed is the
trailing extension. -/
theorem stripCsv_stem_append (stem : Name) (h : containsCsv stem = false) :
    stripCsv (stem ++ csvExt) = stem := by
  induction stem with
  | nil => decide
  | cons c rest ih =>
    rw [containsCsv, Bool.or_eq_false_iff] at h
    have hguard : ∀ r, c = '.' → rest ++ csvExt = 'c' :: 's' :: 'v' :: r → False := by
      intro r hc hr
      subst hc
      rcases rest with _ | ⟨a, _ | ⟨b, _ | ⟨d, rest'⟩⟩⟩
      · rw [List.nil_append, csvExt] at hr
        obtain ⟨h1, -⟩ := List.cons.inj hr
        exact absurd h1 (by decide)
      · rw [List.cons_append, List.nil_append, csvExt] at hr
        obtain ⟨-, hr2⟩ := List.cons.inj hr
        obtain ⟨h2, -⟩ := List.cons.inj hr2
        exact absurd h2 (by decide)
      · rw [List.cons_append, List.cons_append, List.nil_append, csvExt] at hr
        obtain ⟨-, hr2⟩ := List.cons.inj hr
        obtain ⟨-, hr3⟩ := List.cons.inj hr2
        obtain ⟨h3, -⟩ := List.cons.inj hr3
        exact absurd h3 (by decide)
      · obtain ⟨h1, hr2⟩ := List.cons.inj hr
        obtain ⟨h2, hr3⟩ := List.cons.inj hr2
        obtain ⟨h3, -⟩ := List.cons.inj hr3
        subst h1
        subst h2
        subst h3
        simp [isCsvAt] at h
    rw [List.cons_append, stripCsv_cons c (rest ++ csvExt) hguard, ih h.2]

/-- For a stem with no internal `.csv`, the derived table name is exactly
the upper-cased stem: the claim's "strip the trailing extension" rule. -/
theorem tableNameOf_stem (stem : Name) (h : containsCsv stem = false) :
    tableNameOf (stem ++ csvExt) = stem.map Char.toUpper := by
  rw [tableNameOf, stripCsv_stem_append stem h]

/-- `glob`'s `*.csv` filter keeps exactly the names that end in `.csv` and
do not start with a dot. -/
theorem globMatch_iff (name : Name) :
    globMatch name = true ↔ csvExt <:+ name ∧ name.head? ≠ some '.' := by
  have hpl : "*.csv".toList = '*' :: csvExt := by decide
  rw [globMatch, hpl, fnmatch1_star]
  rw [Bool.and_eq_true]
  constructor
  · rintro ⟨h1, h2⟩
    obtain ⟨s, hs, hf⟩ := (starAux_iff _ _).1 h1
    refine ⟨(fnmatch_csvExt s).1 hf ▸ hs, ?_⟩
    simpa using h2
  · rintro ⟨h1, h2⟩
    refine ⟨(starAux_iff _ _).2 ⟨csvExt, h1, (fnmatch_csvExt csvExt).2 rfl⟩, ?_⟩
    simpa using h2

/-- The value the `try`/`except` part leaves pending is exactly the
spec-side success condition of steps 1–5. -/
theorem tryBody_preResult (env : Env) (r0 : List (Name × Data)) :
    (tryBody env r0).preResult = allStepsSucceed env := by
  cases hc : env.connectOk
  · simp [tryBody, allStepsSucceed, hc]
  cases hdb : env.useDatabaseOk
  · simp [tryBody, allStepsSucceed, hc, hdb]
  cases hsc : env.useSchemaOk
  · simp [tryBody, allStepsSucceed, hc, hdb, hsc]
  cases hdk : env.duckOk
  · simp [tryBody, allStepsSucceed, hc, hdb, hsc, hdk]
  by_cases hm : matchedFiles env = []
  · simp [tryBody, allStepsSucceed, hc, hdb, hsc, hdk, hm]
  rcases hlf : loadFiles env (matchedFiles env) [] with ⟨tables, ok⟩
  cases ok
  · have hnot : ¬ ((∀ f ∈ matchedFiles env, env.loadOk f = true) ∧
        (([] : List (Name × Data)).map Prod.fst ++ (matchedFiles env).map tableNameOf).Nodup) := by
      intro hcontr
      have := (loadFiles_ok_iff env (matchedFiles env) [] (by simp)).2 hcontr
      rw [hlf] at this
      cases this
    rcases not_and_or.1 hnot with hA | hB
    · have hall : (matchedFiles env).all env.loadOk = false := by
        rw [← Bool.not_eq_true, List.all_eq_true]
        exact hA
      simp [tryBody, allStepsSucceed, hc, hdb, hsc, hdk, hm, hlf, hall]
    · have hdec : decide (((matchedFiles env).map tableNameOf).Nodup) = false := by
        simp only [decide_eq_false_iff_not]
        simpa using hB
      simp [tryBody, allStepsSucceed, hc, hdb, hsc, hdk, hm, hlf, hdec]
  · have hok : (loadFiles env (matchedFiles env) []).2 = true := by rw [hlf]
    have hAB := (loadFiles_ok_iff env (matchedFiles env) [] (by simp)).1 hok
    have htab : tables = tablesOf env := by
      have := loadFiles_ok_tables env (matchedFiles env) [] hok
      rw [hlf] at this
      simpa [tablesOf] using this
    subst htab
    have hall : (matchedFiles env).all env.loadOk = true := by
      rw [List.all_eq_true]
      exact hAB.1
    have hdec : decide (((matchedFiles env).map tableNameOf).Nodup) = true := by
      simp only [decide_eq_true_eq]
      simpa using hAB.2
    have hwiff : (writeTables env (tablesOf env) r0 []).2.2 =
        (matchedFiles env).all
          (fun f => env.exportOk (tableNameOf f) && env.writeOk (tableNameOf f)) := by
      by_cases hw : (writeTables env (tablesOf env) r0 []).2.2 = true
      · rw [hw]
        symm
        rw [List.all_eq_true]
        intro f hf
        have hp := (writeTables_ok_iff env (tablesOf env) r0 []).1 hw
          (tableNameOf f, env.contents f) (List.mem_map.2 ⟨f, hf, rfl⟩)
        simp [hp.1, hp.2]
      · rw [Bool.not_eq_true] at hw
        rw [hw]
        symm
        rw [← Bool.not_eq_true, List.all_eq_true]
        intro hcontr
        rw [← Bool.not_eq_true] at hw
        refine hw ((writeTables_ok_iff env (tablesOf env) r0 []).2 ?_)
        intro p hp
        obtain ⟨f, hf, rfl⟩ := List.mem_map.1 hp
        have := hcontr f hf
        simp only [Bool.and_eq_true] at this
        exact this
    have hie : (matchedFiles env).isEmpty = false := isEmpty_false_of_ne_nil _ hm
    rcases hwr : writeTables env (tablesOf env) r0 [] with ⟨remw, attw, wok⟩
    rw [hwr] at hwiff
    simp only [Prod.snd] at hwiff
    simp [tryBody, allStepsSucceed, hc, hdb, hsc, hdk, hm, hie, hlf, hwr, hall,
      hdec, hwiff]

/-! ## Concrete scenarios -/

/-- Two well-formed files whose names differ only in case: both derive the
table name `SALES`. -/
def envC1 : Env := allOk ["Sales.csv".toList, "sales.csv".toList] (fun n => n.length)

/-- Everything succeeds except `session.close()`. -/
def envC2 : Env := { allOk ["a.csv".toList] (fun _ => 0) with closeSessionOk := false }

/-- One well-formed file whose base name contains `.csv` twice. -/
def envC3 : Env := allOk ["a.csv.csv".toList] (fun _ => 7)

/-- A directory whose only entry does not match the `*.csv` filter. -/
def envC4 : Env := allOk ["notes.txt".toList] (fun _ => 0)

/-- Everything succeeds except `con.close()`. -/
def envC5 : Env := { allOk ["a.csv".toList] (fun _ => 0) with closeConOk := false }

/-- Two well-formed files with distinct derived names; every call
succeeds. -/
def envAllOk : Env := allOk ["a.csv".toList, "b.csv".toList] (fun n => n.length)

/-- Two matched files, the first of which fails to parse. -/
def envC7 : Env :=
  { allOk ["bad.csv".toList, "good.csv".toList] (fun _ => 0) with
    loadOk := fun n => decide (n ≠ "bad.csv".toList) }

/-- Opening the remote session fails. -/
def envC8 : Env := { allOk ["a.csv".toList] (fun _ => 0) with connectOk := false }

/-- The only entry is a hidden file whose name ends in `.csv`. -/
def envC10 : Env := allOk [".hidden.csv".toList] (fun _ => 0)

/-! ## Claims -/

/-- C1, counterexample.  `Sales.csv` and `sales.csv` both match and both
derive the table name `SALES`; contrary to the claim, the run fails
(returns `false`) and zero — not one — remote tables exist afterwards,
because the second plain `CREATE TABLE SALES` raises a catalog error in
the local store. -/
theorem c1_counterexample :
    matchedFiles envC1 = ["Sales.csv".toList, "sales.csv".toList] ∧
      tableNameOf "Sales.csv".toList = tableNameOf "sales.csv".toList ∧
      (deploy envC1 []).result = some false ∧
      (deploy envC1 []).remote = [] ∧
      (deploy envC1 []).writesAttempted = [] := by decide

/-- C1, amended: when two matched files derive the same table name, the
second load fails inside the local store (plain `CREATE TABLE` on an
existing name), the run aborts before any remote write is attempted,
returns `false`, and the remote warehouse is left unchanged (assuming the
cleanup close calls succeed). -/
theorem c1_collision_aborts (env : Env) (r0 : List (Name × Data))
    (hdup : ¬ ((matchedFiles env).map tableNameOf).Nodup)
    (hcs : env.closeSessionOk = true) (hcc : env.closeConOk = true) :
    (deploy env r0).result = some false ∧ (deploy env r0).remote = r0 ∧
      (deploy env r0).writesAttempted = [] := by
  have hlf := loadFiles_fails_of_dup env (matchedFiles env) hdup
  have hab := tryBody_abort env r0
    (Or.inr (Or.inr (Or.inr (Or.inr (Or.inr hlf)))))
  unfold deploy
  rw [runFinally_ok env _ hcs hcc]
  refine ⟨?_, ?_, ?_⟩ <;> simp [hab.1, hab.2.1, hab.2.2]

/-- C1, witness for the amended theorem at the colliding directory. -/
theorem c1_collision_aborts_witness :
    (deploy envC1 []).result = some false ∧ (deploy envC1 []).remote = [] ∧
      (deploy envC1 []).writesAttempted = [] :=
  c1_collision_aborts envC1 [] (by decide) (by decide) (by decide)

/-- C2, counterexample.  When `session.close()` raises during cleanup, the
DuckDB connection — although acquired — is never closed (the releases are
not independent), and the exception propagates instead of the boolean
result: contrary to the claim, a release failure both suppresses the other
release and changes what the caller receives. -/
theorem c2_counterexample :
    (deploy envC2 []).conOpened = true ∧
      (deploy envC2 []).sessionCloseCalled = true ∧
      (deploy envC2 []).conCloseCalled = false ∧
      (deploy envC2 []).result = none := by decide

/-- C2, amended: cleanup closes the session and then the store connection,
each when it was acquired, and leaves the boolean result intact — but only
provided the close calls themselves do not raise; an exception from
`session.close()` skips `con.close()` and propagates to the caller. -/
theorem c2_cleanup_when_closes_succeed (env : Env) (r0 : List (Name × Data))
    (hcs : env.closeSessionOk = true) (hcc : env.closeConOk = true) :
    ((deploy env r0).sessionOpened = true → (deploy env r0).sessionCloseCalled = true) ∧
      ((deploy env r0).conOpened = true → (deploy env r0).conCloseCalled = true) ∧
      (deploy env r0).result ≠ none := by
  unfold deploy
  rw [runFinally_ok env _ hcs hcc]
  simp

/-- C2, witness for the amended theorem at an all-success run. -/
theorem c2_cleanup_witness :
    ((deploy envAllOk []).sessionOpened = true →
        (deploy envAllOk []).sessionCloseCalled = true) ∧
      ((deploy envAllOk []).conOpened = true →
        (deploy envAllOk []).conCloseCalled = true) ∧
      (deploy envAllOk []).result ≠ none :=
  c2_cleanup_when_closes_succeed envAllOk [] (by decide) (by decide)

/-- C3, counterexample.  For the matched file `a.csv.csv`, `replace`
removes *both* occurrences of `.csv`, so the derived table name — used for
the local and the remote table — is `A`, not the `A.CSV` that "the
trailing extension removed, and only it" would give. -/
theorem c3_counterexample :
    matchedFiles envC3 = ["a.csv.csv".toList] ∧
      tableNameOf "a.csv.csv".toList = "A".toList ∧
      "A".toList ≠ "A.CSV".toList ∧
      (deploy envC3 []).localCreated = ["A".toList] ∧
      (deploy envC3 []).remote = [("A".toList, 7)] := by decide

/-- C3, amended: the derived table name is the base name with *every*
occurrence of `.csv` removed, upper-cased; when `.csv` occurs only as the
trailing extension this coincides with stripping the extension.  On a
successful run that name is used both for the local store tables and for
the attempted remote writes. -/
theorem c3_table_names (env : Env) (r0 : List (Name × Data))
    (hc : env.connectOk = true) (hdb : env.useDatabaseOk = true)
    (hsc : env.useSchemaOk = true) (hdk : env.duckOk = true)
    (hcs : env.closeSessionOk = true) (hcc : env.closeConOk = true)
    (hne : matchedFiles env ≠ [])
    (hld : ∀ f ∈ matchedFiles env, env.loadOk f = true)
    (hnd : ((matchedFiles env).map tableNameOf).Nodup)
    (hexp : ∀ f ∈ matchedFiles env, env.exportOk (tableNameOf f) = true)
    (hwr : ∀ f ∈ matchedFiles env, env.writeOk (tableNameOf f) = true) :
    (deploy env r0).localCreated = (matchedFiles env).map tableNameOf ∧
      (deploy env r0).writesAttempted = (matchedFiles env).map tableNameOf ∧
      (∀ stem : Name, containsCsv stem = false →
        tableNameOf (stem ++ csvExt) = stem.map Char.toUpper) := by
  unfold deploy
  rw [tryBody_success env r0 hc hdb hsc hdk hne hld hnd hexp hwr,
    runFinally_ok env _ hcs hcc]
  exact ⟨rfl, rfl, fun stem h => tableNameOf_stem stem h⟩

/-- C3, witness for the amended theorem at an all-success run. -/
theorem c3_table_names_witness :
    (deploy envAllOk []).localCreated = (matchedFiles envAllOk).map tableNameOf ∧
      (deploy envAllOk []).writesAttempted = (matchedFiles envAllOk).map tableNameOf ∧
      (∀ stem : Name, containsCsv stem = false →
        tableNameOf (stem ++ csvExt) = stem.map Char.toUpper) :=
  c3_table_names envAllOk [] (by decide) (by decide) (by decide) (by decide)
    (by decide) (by decide) (by decide) (by decide) (by decide) (by decide)
    (by decide)

/-- C4: when no directory entry matches `*.csv` (in particular when the
directory does not exist and the listing is empty), the run returns
`false` without raising, creates no local table, attempts no remote write,
and leaves the warehouse unchanged. -/
theorem c4_no_matches (env : Env) (r0 : List (Name × Data))
    (hm : matchedFiles env = [])
    (hcs : env.closeSessionOk = true) (hcc : env.closeConOk = true) :
    (deploy env r0).result = some false ∧ (deploy env r0).remote = r0 ∧
      (deploy env r0).localCreated = [] ∧ (deploy env r0).writesAttempted = [] := by
  have hab := tryBody_abort env r0 (Or.inr (Or.inr (Or.inr (Or.inr (Or.inl hm)))))
  have hlc := tryBody_localCreated_nil env r0 (Or.inr (Or.inr (Or.inr (Or.inr hm))))
  unfold deploy
  rw [runFinally_ok env _ hcs hcc]
  refine ⟨?_, ?_, ?_, ?_⟩ <;> simp [hab.1, hab.2.1, hab.2.2, hlc]

/-- C4, witness at a directory holding only `notes.txt` and a warehouse
holding one unrelated table. -/
theorem c4_no_matches_witness :
    (deploy envC4 [("OLD".toList, 5)]).result = some false ∧
      (deploy envC4 [("OLD".toList, 5)]).remote = [("OLD".toList, 5)] ∧
      (deploy envC4 [("OLD".toList, 5)]).localCreated = [] ∧
      (deploy envC4 [("OLD".toList, 5)]).writesAttempted = [] :=
  c4_no_matches envC4 [("OLD".toList, 5)] (by decide) (by decide) (by decide)

/-- C5, counterexample.  Every step 1–5 succeeds, yet because `con.close()`
raises inside the `finally` block, the call does not return a boolean at
all — the exception propagates to the caller, contrary to "no exception is
ever re-raised … the result is always a boolean". -/
theorem c5_counterexample :
    allStepsSucceed envC5 = true ∧ (deploy envC5 []).result = none := by decide

/-- C5, amended: provided the two cleanup close calls succeed, deploy
returns a boolean, and that boolean is `true` exactly when every step 1–5
completed without error (connect, context, local store, a nonempty match
list, every load, every export and write); an exception raised while
closing either resource instead propagates to the caller. -/
theorem c5_result_iff_steps (env : Env) (r0 : List (Name × Data))
    (hcs : env.closeSessionOk = true) (hcc : env.closeConOk = true) :
    (deploy env r0).result = some (allStepsSucceed env) := by
  unfold deploy
  rw [runFinally_ok env _ hcs hcc]
  simp [tryBody_preResult]

/-- C5, witness at an all-success run. -/
theorem c5_result_iff_steps_witness :
    (deploy envAllOk []).result = some (allStepsSucceed envAllOk) :=
  c5_result_iff_steps envAllOk [] (by decide) (by decide)

/-- C6: starting from an empty warehouse, with N matched well-formed files
whose derived names are pairwise distinct and every external call
succeeding, deploy returns `true` and the warehouse afterwards holds
exactly N tables — one per file, named by the upper-cased stripped name
and holding that file's contents (`tablesOf`). -/
theorem c6_happy_path (env : Env)
    (hc : env.connectOk = true) (hdb : env.useDatabaseOk = true)
    (hsc : env.useSchemaOk = true) (hdk : env.duckOk = true)
    (hcs : env.closeSessionOk = true) (hcc : env.closeConOk = true)
    (hne : matchedFiles env ≠ [])
    (hld : ∀ f ∈ matchedFiles env, env.loadOk f = true)
    (hnd : ((matchedFiles env).map tableNameOf).Nodup)
    (hexp : ∀ f ∈ matchedFiles env, env.exportOk (tableNameOf f) = true)
    (hwr : ∀ f ∈ matchedFiles env, env.writeOk (tableNameOf f) = true) :
    (deploy env []).result = some true ∧
      (deploy env []).remote = tablesOf env ∧
      (deploy env []).remote.length = (matchedFiles env).length := by
  have hkeys : ((tablesOf env).map Prod.fst).Nodup := by
    rw [tablesOf_keys]
    exact hnd
  have hsave : saveAll (tablesOf env) [] = tablesOf env := by
    have := saveAll_fresh (tablesOf env) [] hkeys (by simp)
    simpa using this
  unfold deploy
  rw [tryBody_success env [] hc hdb hsc hdk hne hld hnd hexp hwr,
    runFinally_ok env _ hcs hcc]
  refine ⟨rfl, ?_, ?_⟩
  · simpa using hsave
  · show (saveAll (tablesOf env) []).length = (matchedFiles env).length
    rw [hsave, tablesOf, List.length_map]

/-- C6, witness: two files, two remote tables with the files' contents. -/
theorem c6_happy_path_witness :
    (deploy envAllOk []).result = some true ∧
      (deploy envAllOk []).remote = tablesOf envAllOk ∧
      (deploy envAllOk []).remote.length = (matchedFiles envAllOk).length :=
  c6_happy_path envAllOk (by decide) (by decide) (by decide) (by decide)
    (by decide) (by decide) (by decide) (by decide) (by decide) (by decide)
    (by decide)

/-- C7: if any matched file fails to load into the local store, the run
aborts before any `save_as_table` call is made, returns `false`, and the
warehouse is unchanged (assuming the cleanup close calls succeed). -/
theorem c7_load_failure_no_writes (env : Env) (r0 : List (Name × Data))
    (f : Name) (hf : f ∈ matchedFiles env) (hbad : env.loadOk f = false)
    (hcs : env.closeSessionOk = true) (hcc : env.closeConOk = true) :
    (deploy env r0).result = some false ∧ (deploy env r0).remote = r0 ∧
      (deploy env r0).writesAttempted = [] := by
  have hlf := loadFiles_fails_of_bad env (matchedFiles env) f hf hbad []
  have hab := tryBody_abort env r0
    (Or.inr (Or.inr (Or.inr (Or.inr (Or.inr hlf)))))
  unfold deploy
  rw [runFinally_ok env _ hcs hcc]
  refine ⟨?_, ?_, ?_⟩ <;> simp [hab.1, hab.2.1, hab.2.2]

/-- C7, witness: `bad.csv` fails to parse next to a well-formed
`good.csv`; nothing reaches the warehouse. -/
theorem c7_load_failure_witness :
    (deploy envC7 [("OLD".toList, 5)]).result = some false ∧
      (deploy envC7 [("OLD".toList, 5)]).remote = [("OLD".toList, 5)] ∧
      (deploy envC7 [("OLD".toList, 5)]).writesAttempted = [] :=
  c7_load_failure_no_writes envC7 [("OLD".toList, 5)] "bad.csv".toList
    (by decide) (by decide) (by decide) (by decide)

/-- C8: if opening the remote session or selecting the database/schema
fails, the local store is never populated (it is not even opened), deploy
returns `false`, and cleanup still closes the session whenever it was the
resource that had been acquired. -/
theorem c8_connect_failure (env : Env) (r0 : List (Name × Data))
    (h : env.connectOk = false ∨ env.useDatabaseOk = false ∨ env.useSchemaOk = false)
    (hcs : env.closeSessionOk = true) :
    (deploy env r0).localCreated = [] ∧ (deploy env r0).conOpened = false ∧
      (deploy env r0).result = some false ∧
      ((deploy env r0).sessionOpened = true → (deploy env r0).sessionCloseCalled = true) := by
  unfold deploy
  rw [tryBody_early_fail env r0 h]
  cases hc : env.connectOk
  · simp [runFinally, hc]
  · simp [runFinally, hc, hcs]

/-- C8, witness: the session itself fails to open. -/
theorem c8_connect_failure_witness :
    (deploy envC8 []).localCreated = [] ∧ (deploy envC8 []).conOpened = false ∧
      (deploy envC8 []).result = some false ∧
      ((deploy envC8 []).sessionOpened = true →
        (deploy envC8 []).sessionCloseCalled = true) :=
  c8_connect_failure envC8 [] (Or.inl (by decide)) (by decide)

/-- C9: with unchanged directory contents and every external call
succeeding, running deploy a second time against the warehouse state the
first run produced leaves every remote table exactly as the first run left
it (each `save_as_table` overwrites rather than appends), and the second
run also returns `true`. -/
theorem c9_idempotent (env : Env) (r0 : List (Name × Data))
    (hc : env.connectOk = true) (hdb : env.useDatabaseOk = true)
    (hsc : env.useSchemaOk = true) (hdk : env.duckOk = true)
    (hcs : env.closeSessionOk = true) (hcc : env.closeConOk = true)
    (hne : matchedFiles env ≠ [])
    (hld : ∀ f ∈ matchedFiles env, env.loadOk f = true)
    (hnd : ((matchedFiles env).map tableNameOf).Nodup)
    (hexp : ∀ f ∈ matchedFiles env, env.exportOk (tableNameOf f) = true)
    (hwr : ∀ f ∈ matchedFiles env, env.writeOk (tableNameOf f) = true)
    (hr0 : (r0.map Prod.fst).Nodup) :
    (deploy env ((deploy env r0).remote)).remote = (deploy env r0).remote ∧
      (deploy env ((deploy env r0).remote)).result = some true := by
  have hkeys : ((tablesOf env).map Prod.fst).Nodup := by
    rw [tablesOf_keys]
    exact hnd
  have h1 : (deploy env r0).remote = saveAll (tablesOf env) r0 := by
    unfold deploy
    rw [tryBody_success env r0 hc hdb hsc hdk hne hld hnd hexp hwr,
      runFinally_ok env _ hcs hcc]
  rw [h1]
  unfold deploy
  rw [tryBody_success env (saveAll (tablesOf env) r0) hc hdb hsc hdk hne hld hnd
    hexp hwr, runFinally_ok env _ hcs hcc]
  exact ⟨saveAll_idem (tablesOf env) r0 hkeys hr0, rfl⟩

/-- C9, witness: a second run over the warehouse produced by a first run
from a one-table warehouse changes nothing. -/
theorem c9_idempotent_witness :
    (deploy envAllOk ((deploy envAllOk [("OLD".toList, 5)]).remote)).remote =
        (deploy envAllOk [("OLD".toList, 5)]).remote ∧
      (deploy envAllOk ((deploy envAllOk [("OLD".toList, 5)]).remote)).result =
        some true :=
  c9_idempotent envAllOk [("OLD".toList, 5)] (by decide) (by decide) (by decide)
    (by decide) (by decide) (by decide) (by decide) (by decide) (by decide)
    (by decide) (by decide) (by decide)

/-- C10, counterexample.  The hidden file `.hidden.csv` ends with the
lowercase suffix `.csv`, yet `glob`'s `*` does not match a leading dot: the
file is not enumerated, the match list is empty and the run fails without
loading anything — refuting the claimed "if and only if it ends with
`.csv`". -/
theorem c10_counterexample :
    csvExt.isSuffixOf ".hidden.csv".toList = true ∧
      matchedFiles envC10 = [] ∧
      (deploy envC10 []).result = some false ∧
      (deploy envC10 []).localCreated = [] := by decide

/-- C10, amended: a directory entry is enumerated iff its name ends with
the exact lowercase suffix `.csv` *and* does not begin with a dot; other
extensions or casings (like `SALES.CSV`), and dot-files, are silently
ignored, and the enumeration is exactly the `globMatch` filter over the
listing. -/
theorem c10_enumeration_rule :
    (∀ name : Name, globMatch name = true ↔ csvExt <:+ name ∧ name.head? ≠ some '.') ∧
      (∀ env : Env, matchedFiles env = env.entries.filter globMatch) :=
  ⟨globMatch_iff, fun _ => rfl⟩
